import Mathlib

/-!
Verification of the hands-on-parsing-ozone repository core against its
specification.  JavaScript values coming out of `JSON.parse` are modelled by
the inductive `Json`; JavaScript numbers are modelled exactly by `ℚ`, with
`Option ℚ` where `NaN`/`±Infinity` must be distinguished (the code under
scrutiny always guards such values with `Number.isFinite`).
-/

namespace Ozone

/-- A JavaScript value produced by `JSON.parse` (numbers modelled by `ℚ`). -/
inductive Json where
  | null
  | bool (b : Bool)
  | num (q : ℚ)
  | str (s : String)
  | arr (elems : List Json)
  | obj (fields : List (String × Json))
deriving Inhabited

/-- Field lookup on a JSON value, as JavaScript property access `j[k]`:
`none` models `undefined` (absent field, or access on a non-object). -/
def jsGet (j : Json) (k : String) : Option Json :=
  match j with
  | .obj fields => (fields.find? (fun f => f.1 = k)).map (·.2)
  | _ => none

/-- JavaScript truthiness of a JSON value (`false`, `0`, `""`, `null` are falsy). -/
def jsTruthy (j : Json) : Bool :=
  match j with
  | .null => false
  | .bool b => b
  | .num q => q ≠ 0
  | .str s => s ≠ ""
  | .arr _ => true
  | .obj _ => true

/-- JavaScript `a ?? b` on possibly-absent values: `none` models `undefined`
and `some .null` models `null`; both fall through to the right operand. -/
def jsCoalesce (a b : Option Json) : Option Json :=
  match a with
  | some .null => b
  | some v => some v
  | none => b

/-- Truthiness of an optional string (`undefined` and `""` are falsy). -/
def strTruthy (s : Option String) : Bool :=
  match s with
  | some v => v ≠ ""
  | none => false

/-! ### JavaScript `Number(string)` semantics (finite results only)

The repository always applies `Number.isFinite` to the result of `Number(...)`
before using it, so the model collapses `NaN` and `±Infinity` into `none`. -/

def isAsciiDigit (c : Char) : Bool :=
  c = '0' || c = '1' || c = '2' || c = '3' || c = '4' || c = '5' ||
    c = '6' || c = '7' || c = '8' || c = '9'

def isHexDigitChar (c : Char) : Bool :=
  isAsciiDigit c || ('a' ≤ c && c ≤ 'f') || ('A' ≤ c && c ≤ 'F')

def digitVal (c : Char) : Nat := c.toNat - '0'.toNat

def hexDigitVal (c : Char) : Nat :=
  if isAsciiDigit c then digitVal c
  else if 'a' ≤ c && c ≤ 'f' then c.toNat - 'a'.toNat + 10
  else c.toNat - 'A'.toNat + 10

/-- Value of a digit string in the given base (most significant first). -/
def digitsToNat (base : Nat) (f : Char → Nat) (cs : List Char) : Nat :=
  cs.foldl (fun a c => base * a + f c) 0

/-- ECMAScript StrWhiteSpaceChar, restricted to the ASCII range. -/
def jsWhite (c : Char) : Bool :=
  c = ' ' || c = '\t' || c = '\n' || c = '\r' || c = '\x0b' || c = '\x0c'

def trimWsList (cs : List Char) : List Char :=
  ((cs.dropWhile jsWhite).reverse.dropWhile jsWhite).reverse

/-- Exponent suffix of a StrDecimalLiteral: optional sign, then a non-empty
run of digits consuming the whole remaining input. -/
def parseExpPart (base : ℚ) (cs : List Char) : Option ℚ :=
  let sgnNeg : Bool :=
    match cs with
    | c :: _ => c = '-'
    | [] => false
  let ds : List Char :=
    match cs with
    | c :: r => if c = '+' || c = '-' then r else c :: r
    | [] => []
  if ds.isEmpty || !ds.all isAsciiDigit then none
  else
    let e := digitsToNat 10 digitVal ds
    some (if sgnNeg then base / 10 ^ e else base * 10 ^ e)

/-- The fractional tail of a StrDecimalLiteral: `mant . frac rest3` where
`rest3` may only be an exponent suffix. -/
def parseFracPart (mant frac rest3 : List Char) : Option ℚ :=
  if mant.isEmpty && frac.isEmpty then none
  else
    let base : ℚ :=
      (digitsToNat 10 digitVal mant : ℚ) +
        (digitsToNat 10 digitVal frac : ℚ) / 10 ^ frac.length
    match rest3 with
    | [] => some base
    | e :: rest4 => if e = 'e' || e = 'E' then parseExpPart base rest4 else none

/-- What follows the leading digit run of a StrDecimalLiteral: end of input,
a decimal point, or an exponent marker. -/
def parseAfterMant (mant rest : List Char) : Option ℚ :=
  match rest with
  | [] => if mant.isEmpty then none else some (digitsToNat 10 digitVal mant)
  | c :: rest2 =>
    if c = '.' then
      parseFracPart mant (rest2.takeWhile isAsciiDigit)
        (rest2.dropWhile isAsciiDigit)
    else if (c = 'e' || c = 'E') && !mant.isEmpty then
      parseExpPart (digitsToNat 10 digitVal mant) rest2
    else none

/-- StrUnsignedDecimalLiteral without the `Infinity` production:
`digits [. digits] [exp]` or `. digits [exp]`; anything else is `NaN`. -/
def parseUnsignedDec (cs : List Char) : Option ℚ :=
  parseAfterMant (cs.takeWhile isAsciiDigit) (cs.dropWhile isAsciiDigit)

/-- StrUnsignedDecimalLiteral; `Infinity` yields `none` because the result is
not finite. -/
def parseUnsignedOrInf (cs : List Char) : Option ℚ :=
  if cs = "Infinity".data then none else parseUnsignedDec cs

/-- StrDecimalLiteral: optional sign then an unsigned literal. -/
def parseSignedDec (cs : List Char) : Option ℚ :=
  match cs with
  | c :: r =>
    if c = '+' then parseUnsignedOrInf r
    else if c = '-' then (parseUnsignedOrInf r).map (fun q => -q)
    else parseUnsignedOrInf (c :: r)
  | [] => parseUnsignedOrInf []

/-- A non-decimal integer literal body (`0x…`, `0o…`, `0b…`). -/
def parseRadix (base : Nat) (isDig : Char → Bool) (f : Char → Nat)
    (cs : List Char) : Option ℚ :=
  if cs.isEmpty || !cs.all isDig then none
  else some (digitsToNat base f cs : ℚ)

def isOctDigit (c : Char) : Bool := '0' ≤ c && c ≤ '7'
def isBinDigit (c : Char) : Bool := c = '0' || c = '1'

/-- Whether the (trimmed) literal is a NonDecimalIntegerLiteral
(`0x…`/`0o…`/`0b…`; no sign allowed before these). -/
def radixPrefixed (t : List Char) : Bool :=
  match t with
  | c0 :: x :: _ =>
    c0 = '0' &&
      (x = 'x' || x = 'X' || x = 'o' || x = 'O' || x = 'b' || x = 'B')
  | _ => false

/-- Value of a NonDecimalIntegerLiteral (callers guard with `radixPrefixed`). -/
def parseRadixLiteral (t : List Char) : Option ℚ :=
  match t with
  | _ :: x :: rest =>
    if x = 'x' || x = 'X' then parseRadix 16 isHexDigitChar hexDigitVal rest
    else if x = 'o' || x = 'O' then parseRadix 8 isOctDigit digitVal rest
    else if x = 'b' || x = 'B' then parseRadix 2 isBinDigit digitVal rest
    else none
  | _ => none

/-- JavaScript `Number(s)` for a string `s`, collapsed through
`Number.isFinite`: `some q` when the conversion yields the finite number `q`,
`none` when it yields `NaN` or `±Infinity`. -/
def jsStrToNumberFinite (s : String) : Option ℚ :=
  let t := trimWsList s.data
  if t.isEmpty then some 0
  else if radixPrefixed t then parseRadixLiteral t
  else parseSignedDec t

/-- JavaScript `String.prototype.trim` (ASCII whitespace). -/
def jsTrim (s : String) : String := String.mk (trimWsList s.data)

/-- Substring test on character lists (used to state that an error message
contains a given fragment). -/
def hasSubstring (needle : List Char) : List Char → Bool
  | [] => needle.isEmpty
  | c :: t => needle.isPrefixOf (c :: t) || hasSubstring needle t

/-! ### src/scenarios/parse-product-utils.ts -/

/-- Model of `toString` from parse-product-utils.ts: a non-empty string passes through,
everything else becomes `null`. -/
def jsToString (input : Option Json) : Option String :=
  match input with
  | some (.str s) => if s.length > 0 then some s else none
  | _ => none

/-- The character class kept by `input.replace(/[^\d.,]/g, '')`. -/
def keepNumericChar (c : Char) : Bool := isAsciiDigit c || c = '.' || c = ','

def stripKeepNumeric (cs : List Char) : List Char := cs.filter keepNumericChar

/-- JavaScript `s.replace(',', '.')` with a string pattern replaces only the
first occurrence. -/
def replaceFirstComma : List Char → List Char
  | [] => []
  | c :: cs => if c = ',' then '.' :: cs else c :: replaceFirstComma cs

/-- Model of `toNumber` from parse-product-utils.ts: numbers pass through; a string is
stripped to digits/comma/period, its first comma rewritten to a period, then
converted with `Number`; a non-finite result (and any other input) is `null`. -/
def toNumber (input : Option Json) : Option ℚ :=
  match input with
  | some (.num q) => some q
  | some (.str s) =>
    jsStrToNumberFinite (String.mk (replaceFirstComma (stripKeepNumeric s.data)))
  | _ => none

def commaToDot (c : Char) : Char := if c = ',' then '.' else c

/-- The numeric coercion in the spec's words ("strip all characters except
digits, comma, and period from a string, then treat comma as a decimal
separator; if the result is not a finite number, treat as absent"): every
comma becomes a decimal point.  Stated for comparison with `toNumber`, which
rewrites only the first comma. -/
def specNumericCoercion (s : String) : Option ℚ :=
  jsStrToNumberFinite (String.mk ((stripKeepNumeric s.data).map commaToDot))

/-- Model of `extractFirst` from parse-product-utils.ts: the first element of an array
(`null` when empty, modelled as `none`), otherwise the input itself. -/
def extractFirst (input : Option Json) : Option Json :=
  match input with
  | some (.arr xs) => xs.head?
  | other => other

/-- Model of `extractStringArray` from parse-product-utils.ts. -/
def extractStringArray (input : Option Json) : List String :=
  match input with
  | some (.arr xs) => xs.filterMap (fun item => jsToString (some item))
  | other =>
    match jsToString other with
    | some s => [s]
    | none => []

mutual

/-- Model of `extractBrand` from parse-product-utils.ts, on a present value: falsy
inputs give `null`; a string is trimmed (empty trim gives `null`); an array is
scanned for the first resolvable name; an object contributes its `name` field;
other truthy primitives give `null`. -/
def extractBrandVal : Json → Option String
  | .str s =>
    if s = "" then none
    else if jsTrim s = "" then none else some (jsTrim s)
  | .arr xs => extractBrandList xs
  | .obj fields => jsToString (jsGet (.obj fields) "name")
  | _ => none

/-- The `for … of` loop inside `extractBrand`. -/
def extractBrandList : List Json → Option String
  | [] => none
  | item :: rest =>
    match extractBrandVal item with
    | some name => some name
    | none => extractBrandList rest

end

/-- Model of `extractBrand` applied to a possibly-absent value (`undefined` is falsy). -/
def extractBrand (input : Option Json) : Option String :=
  match input with
  | some j => extractBrandVal j
  | none => none

mutual

/-- Model of `extractSeller` from parse-product-utils.ts (same shape as `extractBrand`). -/
def extractSellerVal : Json → Option String
  | .str s =>
    if s = "" then none
    else if jsTrim s = "" then none else some (jsTrim s)
  | .arr xs => extractSellerList xs
  | .obj fields => jsToString (jsGet (.obj fields) "name")
  | _ => none

/-- The `for … of` loop inside `extractSeller`. -/
def extractSellerList : List Json → Option String
  | [] => none
  | item :: rest =>
    match extractSellerVal item with
    | some name => some name
    | none => extractSellerList rest

end

/-- Model of `extractSeller` applied to a possibly-absent value. -/
def extractSeller (input : Option Json) : Option String :=
  match input with
  | some j => extractSellerVal j
  | none => none

/-- Model of `detectCurrencySymbol` from parse-product-utils.ts (`includes` with a
one-character pattern is character containment). -/
def detectCurrencySymbol (priceText : Option String) : Option String :=
  match priceText with
  | none => none
  | some s =>
    if s = "" then none
    else if s.data.contains '₽' then some "RUB"
    else if s.data.contains '$' then some "USD"
    else if s.data.contains '€' then some "EUR"
    else none

/-- Model of `ProductPrice` from ozon-parser.service.ts. -/
structure ProductPrice where
  value : Option ℚ
  currency : Option String
  displayText : Option String
  availability : Option String
deriving DecidableEq, Repr

/-- Model of `ProductRating` from ozon-parser.service.ts. -/
structure ProductRating where
  value : Option ℚ
  reviewCount : Option ℚ
deriving DecidableEq, Repr

/-- Model of `ProductInfo` from ozon-parser.service.ts (the ProductRecord). -/
structure ProductInfo where
  title : String
  url : String
  sku : Option String
  brand : Option String
  description : Option String
  price : ProductPrice
  rating : Option ProductRating
  seller : Option String
  breadcrumbs : List String
  images : List String
  rawPriceText : Option String
deriving DecidableEq, Repr

/-- Model of `EvaluationResult` from parse-product-utils.ts (the EvaluationSnapshot).
The optional `rawJsonLd` debugging field is not modelled: it is only logged. -/
structure EvaluationResult where
  isChallenge : Bool
  challengeToken : Option String
  heading : Option String
  priceText : Option String
  product : Option Json
  breadcrumbs : List String
deriving Inhabited

/-- Model of `evaluation.product ?? {}` at the head of `normalizeProductInfo`. -/
def productOrEmpty (product : Option Json) : Json :=
  match product with
  | some .null => .obj []
  | some p => p
  | none => .obj []

/-- Model of `normalizeProductInfo` from parse-product-utils.ts. -/
def normalizeProductInfo (evaluation : EvaluationResult) (url : String) :
    ProductInfo :=
  let product : Json := productOrEmpty evaluation.product
  let offers := extractFirst (jsGet product "offers")
  let aggregateRating := extractFirst (jsGet product "aggregateRating")
  let images := extractStringArray (jsGet product "image")
  let offersPrice : Option Json :=
    match offers with
    | some o => jsGet o "price"
    | none => none
  let priceValue :=
    toNumber (jsCoalesce offersPrice (evaluation.priceText.map Json.str))
  let offersCurrency : Option Json :=
    match offers with
    | some o => jsGet o "priceCurrency"
    | none => none
  let offersAvailability : Option Json :=
    match offers with
    | some o => jsGet o "availability"
    | none => none
  let offersSeller : Option Json :=
    match offers with
    | some o => jsGet o "seller"
    | none => none
  { title :=
      match jsToString (jsGet product "name") with
      | some n => n
      | none =>
        match evaluation.heading with
        | some h => h
        | none => "Unknown product"
    url := url
    sku :=
      match jsToString (jsGet product "sku") with
      | some v => some v
      | none => jsToString (jsGet product "mpn")
    brand := extractBrand (jsGet product "brand")
    description := jsToString (jsGet product "description")
    price :=
      { value := priceValue
        currency :=
          match jsToString offersCurrency with
          | some c => some c
          | none => detectCurrencySymbol evaluation.priceText
        displayText := evaluation.priceText
        availability := jsToString offersAvailability }
    rating :=
      match aggregateRating with
      | some ar =>
        if jsTruthy ar then
          some { value := toNumber (jsGet ar "ratingValue")
                 reviewCount :=
                   toNumber (jsCoalesce (jsGet ar "reviewCount")
                     (jsGet ar "ratingCount")) }
        else none
      | none => none
    seller := extractSeller offersSeller
    breadcrumbs := evaluation.breadcrumbs
    images := images
    rawPriceText := evaluation.priceText }

/-! ### Breadcrumb extraction inside `evaluatePage`
(parse-product.scenario.ts, lines 121–144) -/

/-- The page-side `toArray` helper: arrays keep their non-nullish elements, a
nullish value gives `[]`, anything else is wrapped. -/
def toArray (value : Option Json) : List Json :=
  match value with
  | some (.arr xs) =>
    xs.filter (fun item => match item with | .null => false | _ => true)
  | some .null => []
  | none => []
  | some v => [v]

/-- The breadcrumb filter predicate: a non-null object value whose `@type`
field is exactly the string `"BreadcrumbList"`. -/
def isBreadcrumbListNode (node : Json) : Bool :=
  match jsGet node "@type" with
  | some (.str t) => t = "BreadcrumbList"
  | _ => false

/-- Model of `element.name ?? element.item?.name`, kept only when it is a string. -/
def breadcrumbLabel (element : Json) : Option String :=
  let nestedName : Option Json :=
    match jsGet element "item" with
    | some j => jsGet j "name"
    | none => none
  match jsCoalesce (jsGet element "name") nestedName with
  | some (.str s) => some s
  | _ => none

/-- The breadcrumb items of one `BreadcrumbList` node: its `itemListElement`
entries mapped through `breadcrumbLabel` with the final `.filter(Boolean)`
(which also drops empty-string labels). -/
def breadcrumbItems (node : Json) : List String :=
  (toArray (jsGet node "itemListElement")).filterMap (fun element =>
    match breadcrumbLabel element with
    | some s => if s = "" then none else some s
    | none => none)

/-- The `breadcrumbs` value computed by `evaluatePage` from the flattened
JSON-LD node list: filter on `BreadcrumbList` type, then `flatMap` each node's
items. -/
def extractBreadcrumbs (jsonLdNodes : List Json) : List String :=
  (jsonLdNodes.filter isBreadcrumbListNode).flatMap breadcrumbItems

/-! ### Options records (ozon-parser.service.ts) -/

/-- Model of `CliScenario` from cli-options.ts. -/
inductive CliScenario where
  | parseProduct
  | openGoogle
  | openProduct
  | openRoot
  | openFirstProductFromRoot
  | parseFirstProductFromRoot
deriving DecidableEq, Repr

/-- Model of `OutputFormat` from cli-options.ts. -/
inductive OutputFormat where
  | text
  | json
deriving DecidableEq, Repr

/-- Model of `ParserOptions` from ozon-parser.service.ts; optional fields are `Option`
(`none` models an absent/undefined field). -/
structure ParserOptions where
  url : String
  headless : Option Bool := none
  timeoutMs : Option ℚ := none
  keepBrowserOpen : Option Bool := none
  proxy : Option String := none
  proxyUsername : Option String := none
  proxyPassword : Option String := none
  connectEndpoint : Option String := none
  connectPort : Option ℚ := none
deriving DecidableEq, Repr

/-- Model of `RunOptions` from ozon-parser.service.ts. -/
structure RunOptions extends ParserOptions where
  output : OutputFormat
  scenario : CliScenario
deriving DecidableEq, Repr

/-! ### Challenge handling inside `parseProduct`
(parse-product.scenario.ts, lines 176–215)

The scenario's effects after navigation are instrumented as a list of
`ParseEvent`s in the order the source performs them: each `evaluatePage` call,
the headful warning log, the `waitForUserSignal` suspension, the best-effort
`waitForNavigation`, and finally `normalizeProductInfo` (`extract`). -/

inductive ParseEvent where
  | evaluate
  | warnChallenge
  | waitUserSignal
  | waitNavigation
  | extract
deriving DecidableEq, Repr

/-- The `details` string built from the first snapshot's challenge token. -/
def challengeDetails (token : Option String) : String :=
  match token with
  | some t => "Encountered Ozon antibot challenge (token " ++ t ++ ")."
  | none => "Encountered Ozon antibot challenge."

/-- The challenge-handling and extraction tail of `parseProduct`: `eval1` is
the snapshot of the first `evaluatePage` call and `eval2` the snapshot the
second call would produce (consulted only on the manual-retry path).  Returns
the scenario outcome together with the ordered event trace. -/
def parseProductChallengePhase (options : ParserOptions)
    (eval1 eval2 : EvaluationResult) :
    Except String ProductInfo × List ParseEvent :=
  if eval1.isChallenge then
    let details := challengeDetails eval1.challengeToken
    if options.headless ≠ some false then
      (.error (details ++
        " Try running with residential proxies, solving the challenge in a browser and reusing cookies, or slowing down navigation."),
       [.evaluate])
    else if eval2.isChallenge then
      (.error (details ++
        " Still active after manual retry. Try re-running once the challenge is fully cleared."),
       [.evaluate, .warnChallenge, .waitUserSignal, .waitNavigation, .evaluate])
    else
      (.ok (normalizeProductInfo eval2 options.url),
       [.evaluate, .warnChallenge, .waitUserSignal, .waitNavigation, .evaluate,
        .extract])
  else
    (.ok (normalizeProductInfo eval1 options.url), [.evaluate, .extract])

/-! ### Browser acquisition (browser-utils.ts) -/

/-- The `GET /json/version` exchange, with the body given by its `JSON.parse`
outcome: `none` models a body that is not valid JSON. -/
structure JsonVersionResponse where
  status : Nat
  body : Option Json

/-- The body inspection inside `resolveEndpointFromPort`: the
`webSocketDebuggerUrl` field must be a non-empty string. -/
def extractWsUrl (body : Json) : Option String :=
  match jsGet body "webSocketDebuggerUrl" with
  | some (.str s) => if s.length = 0 then none else some s
  | _ => none

/-- Model of `resolveEndpointFromPort` from browser-utils.ts: all rejection paths
(status ≥ 400, unparseable body, missing/empty field — and, in the source,
transport errors and timeouts) are caught and collapsed to `null`. -/
def resolveEndpointFromPort (resp : JsonVersionResponse) : Option String :=
  if resp.status ≥ 400 then none
  else
    match resp.body with
    | none => none
    | some b => extractWsUrl b

/-- The result of `acquireBrowser`: whether the session was launched (owned)
or attached, and the WebSocket endpoint used when attaching. -/
structure AcquireResult where
  ownsBrowser : Bool
  endpoint : Option String
deriving DecidableEq, Repr

/-- Display of `connectPort` in the error message (`${connectPort}`); ports in
practice are integers, rendered as JavaScript renders them. -/
def portText (p : Option ℚ) : String :=
  match p with
  | some q => if q.den = 1 then toString q.num else toString q
  | none => "undefined"

/-- Model of `acquireBrowser` from browser-utils.ts, with the `/json/version` exchange
supplied as `resp` (only consulted on the connect-port path). -/
def acquireBrowser (options : ParserOptions) (resp : JsonVersionResponse) :
    Except String AcquireResult :=
  if strTruthy options.connectEndpoint || options.connectPort.isSome then
    let endpoint : Option String :=
      match options.connectEndpoint with
      | some e => some e
      | none => resolveEndpointFromPort resp
    match endpoint with
    | none =>
      .error ("Unable to resolve WebSocket endpoint from port " ++
        portText options.connectPort ++ ". Ensure the browser exposes /json/version.")
    | some e =>
      if e = "" then
        .error ("Unable to resolve WebSocket endpoint from port " ++
          portText options.connectPort ++ ". Ensure the browser exposes /json/version.")
      else .ok { ownsBrowser := false, endpoint := some e }
  else .ok { ownsBrowser := true, endpoint := none }

/-! ### Teardown (scenario-utils.ts, parse-product.scenario.ts,
open-product.scenario.ts)

Each teardown site is modelled as the ordered list of browser operations it
invokes, given the ownership flag and whether the browser is still connected
at the point of the connectivity check. -/

inductive TeardownAction where
  | close
  | disconnect
  | waitHeadful
deriving DecidableEq, Repr

/-- The `finally` block of `parseProduct` (parse-product.scenario.ts,
lines 216–228). -/
def parseProductFinallyActions (ownsBrowser connected : Bool)
    (options : ParserOptions) : List TeardownAction :=
  (if ownsBrowser ∧ options.keepBrowserOpen = some true ∧
      options.headless = some false
   then [.waitHeadful] else []) ++
  (if ownsBrowser then (if connected then [.close] else [])
   else (if connected then [.disconnect] else []))

/-- Model of `cleanupBrowser` from scenario-utils.ts. -/
def cleanupBrowserActions (ownsBrowser connected : Bool) :
    List TeardownAction :=
  if !connected then []
  else if ownsBrowser then [.close]
  else [.disconnect]

/-- Model of `finishSimpleScenario` from scenario-utils.ts. -/
def finishSimpleScenarioActions (ownsBrowser connected : Bool)
    (options : RunOptions) : List TeardownAction :=
  (if ownsBrowser ∧ options.headless = some false ∧
      options.keepBrowserOpen = some true ∧ options.scenario = .parseProduct
   then [.waitHeadful] else []) ++
  (if !connected then []
   else if options.scenario ≠ CliScenario.parseProduct then []
   else if ownsBrowser then [.close]
   else [.disconnect])

/-- The `catch` block of `openProduct` (open-product.scenario.ts,
lines 27–34). -/
def openProductCatchActions (ownsBrowser connected : Bool) :
    List TeardownAction :=
  if ownsBrowser && connected then [.close]
  else if connected then [.disconnect]
  else []

/-- Teardown of a full `openProduct` run: the success path ends in
`finishSimpleScenario`, every error path runs the `catch` block. -/
def openProductTeardownActions (success ownsBrowser connected : Bool)
    (options : RunOptions) : List TeardownAction :=
  if success then finishSimpleScenarioActions ownsBrowser connected options
  else openProductCatchActions ownsBrowser connected

/-! ### Configuration parsing (cli-options.ts) -/

/-- JavaScript `String.prototype.startsWith`. -/
def strStartsWith (s pre : String) : Bool := pre.data.isPrefixOf s.data

/-- JavaScript `String.prototype.split` with a one-character separator
(every occurrence splits; no limit). -/
def splitOnChar (sep : Char) : List Char → List (List Char)
  | [] => [[]]
  | c :: rest =>
    match splitOnChar sep rest with
    | [] => [[]]
    | h :: t => if c = sep then [] :: h :: t else (c :: h) :: t

/-- Model of `entry.split('=')` as used by the npm-recovery helpers. -/
def jsSplitEq (entry : String) : List String :=
  (splitOnChar '=' entry.data).map String.mk

def DEFAULT_PRODUCT_URL : String :=
  "https://www.ozon.ru/product/kedy-adidas-sportswear-grand-court-base-2-0-1066650955/"

/-- Model of `CliOptions` from cli-options.ts. -/
structure CliOptions where
  url : String
  output : OutputFormat
  headless : Bool
  timeoutMs : Option ℚ
  verbose : Bool
  keepBrowserOpen : Bool
  proxy : Option String
  proxyUsername : Option String
  proxyPassword : Option String
  connectEndpoint : Option String
  connectPort : Option ℚ
  scenario : CliScenario
deriving DecidableEq, Repr

/-- Model of `CliParseResult` from cli-options.ts. -/
structure CliParseResult where
  options : CliOptions
  helpRequested : Bool
deriving DecidableEq, Repr

/-- The environment variables read by `parseCli`.  `npm_config_argv` is given
by its `JSON.parse` outcome: outer `none` = variable unset (not a string),
`some none` = set but not valid JSON (the parse throws and the whole
npm-recovery block is skipped). -/
structure Env where
  PARSER_PRODUCT_URL : Option String := none
  PARSER_OUTPUT : Option String := none
  PARSER_HEADLESS : Option String := none
  PARSER_TIMEOUT : Option String := none
  PARSER_PROXY : Option String := none
  HTTPS_PROXY : Option String := none
  HTTP_PROXY : Option String := none
  PARSER_PROXY_USERNAME : Option String := none
  PARSER_PROXY_PASSWORD : Option String := none
  PARSER_CONNECT_ENDPOINT : Option String := none
  PARSER_CONNECT_PORT : Option String := none
  PARSER_SCENARIO : Option String := none
  npm_config_argv : Option (Option Json) := none

def asciiLowerChar (c : Char) : Char :=
  if 'A' ≤ c && c ≤ 'Z' then Char.ofNat (c.toNat + 32) else c

/-- Model of `String.prototype.toLowerCase` (ASCII range). -/
def asciiLower (s : String) : String := String.mk (s.data.map asciiLowerChar)

/-- Model of `!['false', '0'].includes((env.PARSER_HEADLESS ?? '').toLowerCase())`. -/
def headlessFromEnv (env : Env) : Bool :=
  !(["false", "0"].contains (asciiLower (env.PARSER_HEADLESS.getD "")))

/-- Model of `validateScenario` from cli-options.ts. -/
def validateScenario (value : String) : Except String CliScenario :=
  if value = "parseProduct" then .ok .parseProduct
  else if value = "openGoogle" then .ok .openGoogle
  else if value = "openProduct" then .ok .openProduct
  else if value = "openRoot" then .ok .openRoot
  else if value = "openFirstProductFromRoot" then .ok .openFirstProductFromRoot
  else if value = "parseFirstProductFromRoot" then .ok .parseFirstProductFromRoot
  else
    .error ("Unknown scenario: " ++ value ++
      ". Expected parseProduct | openGoogle | openProduct | openRoot | openFirstProductFromRoot | parseFirstProductFromRoot")

/-- Model of `parseNumber` from cli-options.ts (`!value` also rejects the empty
string; a non-finite `Number(value)` gives `undefined`). -/
def parseNumberEnv (value : Option String) : Option ℚ :=
  match value with
  | none => none
  | some v => if v = "" then none else jsStrToNumberFinite v

/-- The `options` initializer of `parseCli` (defaults from the environment). -/
def initialOptions (env : Env) (scenarioFromEnv : CliScenario) : CliOptions :=
  { url := env.PARSER_PRODUCT_URL.getD DEFAULT_PRODUCT_URL
    output := if env.PARSER_OUTPUT = some "json" then .json else .text
    headless := headlessFromEnv env
    timeoutMs := parseNumberEnv env.PARSER_TIMEOUT
    verbose := false
    keepBrowserOpen := !headlessFromEnv env
    proxy := env.PARSER_PROXY <|> env.HTTPS_PROXY <|> env.HTTP_PROXY
    proxyUsername := env.PARSER_PROXY_USERNAME
    proxyPassword := env.PARSER_PROXY_PASSWORD
    connectEndpoint := env.PARSER_CONNECT_ENDPOINT
    connectPort := parseNumberEnv env.PARSER_CONNECT_PORT
    scenario := scenarioFromEnv }

/-- The main `for` loop of `parseCli` over the (`--`-filtered) arguments.
`ensureValue` is inlined at each value-taking flag: the next argument must
exist, be non-empty and not start with `-`, and is consumed. -/
def parseArgsLoop :
    List String → CliOptions → Bool → Except String (CliOptions × Bool)
  | [], opts, help => .ok (opts, help)
  | arg :: rest, opts, help =>
    if arg = "--help" || arg = "-h" then
      parseArgsLoop rest opts true
    else if arg = "--url" || arg = "-u" then
      match rest with
      | [] => .error ("Expected value after " ++ arg)
      | v :: r =>
        if v = "" || strStartsWith v "-" then
          .error ("Expected value after " ++ arg)
        else parseArgsLoop r { opts with url := v } help
    else if arg = "--json" then
      parseArgsLoop rest { opts with output := .json } help
    else if arg = "--text" then
      parseArgsLoop rest { opts with output := .text } help
    else if arg = "--timeout" then
      match rest with
      | [] => .error ("Expected value after " ++ arg)
      | v :: r =>
        if v = "" || strStartsWith v "-" then
          .error ("Expected value after " ++ arg)
        else
          match jsStrToNumberFinite v with
          | none => .error ("Invalid timeout value: " ++ v)
          | some q => parseArgsLoop r { opts with timeoutMs := some q } help
    else if arg = "--connect-endpoint" then
      match rest with
      | [] => .error ("Expected value after " ++ arg)
      | v :: r =>
        if v = "" || strStartsWith v "-" then
          .error ("Expected value after " ++ arg)
        else parseArgsLoop r { opts with connectEndpoint := some v } help
    else if arg = "--connect-port" then
      match rest with
      | [] => .error ("Expected value after " ++ arg)
      | v :: r =>
        if v = "" || strStartsWith v "-" then
          .error ("Expected value after " ++ arg)
        else
          match jsStrToNumberFinite v with
          | none => .error ("Invalid port value: " ++ v)
          | some q => parseArgsLoop r { opts with connectPort := some q } help
    else if arg = "--proxy" then
      match rest with
      | [] => .error ("Expected value after " ++ arg)
      | v :: r =>
        if v = "" || strStartsWith v "-" then
          .error ("Expected value after " ++ arg)
        else parseArgsLoop r { opts with proxy := some v } help
    else if arg = "--proxy-username" then
      match rest with
      | [] => .error ("Expected value after " ++ arg)
      | v :: r =>
        if v = "" || strStartsWith v "-" then
          .error ("Expected value after " ++ arg)
        else parseArgsLoop r { opts with proxyUsername := some v } help
    else if arg = "--proxy-password" then
      match rest with
      | [] => .error ("Expected value after " ++ arg)
      | v :: r =>
        if v = "" || strStartsWith v "-" then
          .error ("Expected value after " ++ arg)
        else parseArgsLoop r { opts with proxyPassword := some v } help
    else if arg = "--no-headless" then
      parseArgsLoop rest { opts with headless := false, keepBrowserOpen := true } help
    else if arg = "--headless" then
      parseArgsLoop rest { opts with headless := true, keepBrowserOpen := false } help
    else if arg = "--auto-close" then
      parseArgsLoop rest { opts with keepBrowserOpen := false } help
    else if arg = "--keep-browser-open" then
      parseArgsLoop rest { opts with keepBrowserOpen := true } help
    else if arg = "--verbose" || arg = "-v" then
      parseArgsLoop rest { opts with verbose := true } help
    else if arg = "--scenario" then
      match rest with
      | [] => .error ("Expected value after " ++ arg)
      | v :: r =>
        if v = "" || strStartsWith v "-" then
          .error ("Expected value after " ++ arg)
        else
          match validateScenario v with
          | .error e => .error e
          | .ok sc => parseArgsLoop r { opts with scenario := sc } help
    else if strStartsWith arg "-" then
      .error ("Unknown argument: " ++ arg)
    else if opts.url = "" || opts.url = DEFAULT_PRODUCT_URL then
      parseArgsLoop rest { opts with url := arg } help
    else if opts.timeoutMs = none ∧ (jsStrToNumberFinite arg).isSome then
      parseArgsLoop rest { opts with timeoutMs := jsStrToNumberFinite arg } help
    else
      .error ("Unexpected argument: " ++ arg)

/-- Model of `parsed.original` coerced to a string array (non-strings become `""`). -/
def npmOriginal (parsed : Json) : List String :=
  match jsGet parsed "original" with
  | some (.arr xs) => xs.map (fun v => match v with | .str s => s | _ => "")
  | _ => []

/-- The lookahead part of the npm `getValue` helper. -/
def nextEntryValue (original : List String) (index : Nat) : Option String :=
  match original[index + 1]? with
  | some nxt => if !(strStartsWith nxt "--") then some nxt else none
  | none => none

/-- Model of `getValue` from the npm-recovery block: an inline `--flag=value` part when
non-empty, else the next entry when it does not start with `--`. -/
def npmGetValue (original : List String) (flag : String) (index : Nat) :
    Option String :=
  match original[index]? with
  | none => none
  | some entry =>
    if entry = "" then none
    else
      let parts := jsSplitEq entry
      if parts.head? ≠ some flag then none
      else
        match parts[1]? with
        | some inline =>
          if inline.length > 0 then some inline
          else nextEntryValue original index
        | none => nextEntryValue original index

/-- One guarded, in-place option mutation of the npm-recovery block. -/
def npmFlag (cond : Bool) (f : CliOptions → CliOptions) (o : CliOptions) :
    CliOptions :=
  if cond then f o else o

/-- The simple-flag recoveries of the npm block (scenario shortcuts and
boolean flags guarded on the flag being absent from the real argv), applied
in source order (innermost first). -/
def npmFlagsPhase (original argv : List String) (opts : CliOptions) :
    CliOptions :=
  npmFlag (!argv.contains "--verbose" && original.contains "--verbose")
    (fun o => { o with verbose := true })
    (npmFlag (!argv.contains "--keep-browser-open" &&
        original.contains "--keep-browser-open")
      (fun o => { o with keepBrowserOpen := true })
      (npmFlag (!argv.contains "--auto-close" &&
          original.contains "--auto-close")
        (fun o => { o with keepBrowserOpen := false })
        (npmFlag (!argv.contains "--headless" && original.contains "--headless")
          (fun o => { o with headless := true, keepBrowserOpen := false })
          (npmFlag (!argv.contains "--no-headless" &&
              original.contains "--no-headless")
            (fun o => { o with headless := false, keepBrowserOpen := true })
            (npmFlag (original.contains "--open-root-page")
              (fun o => { o with scenario := .openRoot })
              (npmFlag (original.contains "--open-product-page-only")
                (fun o => { o with scenario := .openProduct })
                (npmFlag (original.contains "--check-google")
                  (fun o => { o with scenario := .openGoogle })
                  opts)))))))

/-- The npm `--scenario` recovery loop: the first entry starting with
`--scenario` that yields a truthy value is validated (`none` = no such entry,
`some (.error _)` = validation threw, aborting the npm block). -/
def npmScenarioResult (original : List String) :
    Option (Except String CliScenario) :=
  go original.enum
where
  go : List (Nat × String) → Option (Except String CliScenario)
    | [] => none
    | (index, entry) :: rest =>
      if strStartsWith entry "--scenario" then
        let value :=
          match (jsSplitEq entry)[1]? with
          | some inline => some inline
          | none => npmGetValue original "--scenario" index
        match value with
        | some v => if v ≠ "" then some (validateScenario v) else go rest
        | none => go rest
      else go rest

/-- The `--connect-port` case body of the npm connect-recovery loop. -/
def npmRecoverConnectPort (original args : List String) (index : Nat)
    (opts : CliOptions) : CliOptions :=
  if !args.contains "--connect-port" ∧ opts.connectPort = none ∧
      opts.connectEndpoint = none then
    match npmGetValue original "--connect-port" index with
    | some v =>
      match jsStrToNumberFinite v with
      | some p => { opts with connectPort := some p }
      | none => opts
    | none => opts
  else opts

/-- The `--connect-endpoint` case body of the npm connect-recovery loop. -/
def npmRecoverConnectEndpoint (original args : List String) (index : Nat)
    (opts : CliOptions) : CliOptions :=
  if !args.contains "--connect-endpoint" ∧
      !(strTruthy opts.connectEndpoint) then
    match npmGetValue original "--connect-endpoint" index with
    | some v =>
      if v ≠ "" then { opts with connectEndpoint := some v, connectPort := none }
      else opts
    | none => opts
  else opts

/-- The `--proxy` case body of the npm connect-recovery loop. -/
def npmRecoverProxy (original args : List String) (index : Nat)
    (opts : CliOptions) : CliOptions :=
  if !args.contains "--proxy" ∧ !(strTruthy opts.proxy) then
    match npmGetValue original "--proxy" index with
    | some v => if v ≠ "" then { opts with proxy := some v } else opts
    | none => opts
  else opts

/-- The `--proxy-username` case body of the npm connect-recovery loop. -/
def npmRecoverProxyUsername (original args : List String) (index : Nat)
    (opts : CliOptions) : CliOptions :=
  if !args.contains "--proxy-username" ∧ !(strTruthy opts.proxyUsername) then
    match npmGetValue original "--proxy-username" index with
    | some v => if v ≠ "" then { opts with proxyUsername := some v } else opts
    | none => opts
  else opts

/-- The `--proxy-password` case body of the npm connect-recovery loop. -/
def npmRecoverProxyPassword (original args : List String) (index : Nat)
    (opts : CliOptions) : CliOptions :=
  if !args.contains "--proxy-password" ∧ !(strTruthy opts.proxyPassword) then
    match npmGetValue original "--proxy-password" index with
    | some v => if v ≠ "" then { opts with proxyPassword := some v } else opts
    | none => opts
  else opts

/-- The `--timeout` case body of the npm connect-recovery loop. -/
def npmRecoverTimeout (original args : List String) (index : Nat)
    (opts : CliOptions) : CliOptions :=
  if !args.contains "--timeout" ∧ opts.timeoutMs = none then
    match npmGetValue original "--timeout" index with
    | some v =>
      match jsStrToNumberFinite v with
      | some t => { opts with timeoutMs := some t }
      | none => opts
    | none => opts
  else opts

/-- The `--url` case body of the npm connect-recovery loop. -/
def npmRecoverUrl (original args : List String) (index : Nat)
    (opts : CliOptions) : CliOptions :=
  if !args.contains "--url" ∧ opts.url = DEFAULT_PRODUCT_URL then
    match npmGetValue original "--url" index with
    | some v => if v ≠ "" then { opts with url := v } else opts
    | none => opts
  else opts

/-- One iteration of the npm connect/proxy/timeout/url recovery loop: the
`switch (true)` dispatch on the entry, each case in its own helper. -/
def npmConnectStep (original args : List String) (index : Nat)
    (entry : String) (opts : CliOptions) : CliOptions :=
  if !(strStartsWith entry "--") then opts
  else if entry = "--connect-port" || strStartsWith entry "--connect-port=" then
    npmRecoverConnectPort original args index opts
  else if entry = "--connect-endpoint" ||
      strStartsWith entry "--connect-endpoint=" then
    npmRecoverConnectEndpoint original args index opts
  else if entry = "--proxy" || strStartsWith entry "--proxy=" then
    npmRecoverProxy original args index opts
  else if entry = "--proxy-username" || strStartsWith entry "--proxy-username=" then
    npmRecoverProxyUsername original args index opts
  else if entry = "--proxy-password" || strStartsWith entry "--proxy-password=" then
    npmRecoverProxyPassword original args index opts
  else if entry = "--timeout" || strStartsWith entry "--timeout=" then
    npmRecoverTimeout original args index opts
  else if entry = "--url" || strStartsWith entry "--url=" then
    npmRecoverUrl original args index opts
  else opts

/-- The npm connect/proxy/timeout/url recovery loop over all entries. -/
def npmConnectPhase (original args : List String) (opts : CliOptions) :
    CliOptions :=
  original.enum.foldl
    (fun o p => npmConnectStep original args p.1 p.2 o) opts

/-- The whole `npm_config_argv` recovery block.  A malformed value, or a
throwing `validateScenario` inside the scenario loop, is swallowed by the
surrounding `catch`, keeping the mutations made up to that point. -/
def npmPhase (raw : Option (Option Json)) (argv args : List String)
    (opts : CliOptions) : CliOptions :=
  match raw with
  | none => opts
  | some none => opts
  | some (some parsed) =>
    let original := npmOriginal parsed
    let o := npmFlagsPhase original argv opts
    let hasScenario := original.contains "--scenario" ||
      original.any (fun e => strStartsWith e "--scenario=")
    if hasScenario then
      match npmScenarioResult original with
      | some (.ok sc) => npmConnectPhase original args { o with scenario := sc }
      | some (.error _) => o
      | none => npmConnectPhase original args o
    else npmConnectPhase original args o

/-- Model of `parseCli` from cli-options.ts. -/
def parseCli (argv : List String) (env : Env) :
    Except String CliParseResult := do
  let scenarioFromEnv ← validateScenario (env.PARSER_SCENARIO.getD "parseProduct")
  let args := argv.filter (fun a => a ≠ "--")
  let (opts, helpRequested) ←
    parseArgsLoop args (initialOptions env scenarioFromEnv) false
  if opts.url = "" then
    .error "Missing product URL. Provide it via --url or PARSER_PRODUCT_URL"
  else if strTruthy opts.connectEndpoint ∧ opts.connectPort.isSome then
    .error "Provide either --connect-endpoint or --connect-port, not both."
  else
    let opts := npmPhase env.npm_config_argv argv args opts
    let opts :=
      if opts.scenario ≠ CliScenario.parseProduct ∧
          !args.contains "--keep-browser-open" ∧
          !args.contains "--auto-close" then
        { opts with keepBrowserOpen := false }
      else opts
    .ok { options := opts, helpRequested := helpRequested }

/-! ## Theorems -/

theorem isPrefixOf_self_append (a b : List Char) :
    a.isPrefixOf (a ++ b) = true := by
  induction a with
  | nil => simp [List.isPrefixOf]
  | cons x xs ih => simp [List.isPrefixOf, ih]

theorem hasSubstring_of_isPrefixOf {needle hay : List Char}
    (h : needle.isPrefixOf hay = true) : hasSubstring needle hay = true := by
  cases hay with
  | nil =>
    cases needle with
    | nil => simp [hasSubstring, List.isEmpty]
    | cons c t => simp [List.isPrefixOf] at h
  | cons c t => simp [hasSubstring, h]

theorem hasSubstring_cons {needle t : List Char} (c : Char)
    (h : hasSubstring needle t = true) : hasSubstring needle (c :: t) = true := by
  simp [hasSubstring, h]

theorem hasSubstring_of_append (pre needle post : List Char) :
    hasSubstring needle (pre ++ needle ++ post) = true := by
  induction pre with
  | nil =>
    simpa using hasSubstring_of_isPrefixOf (isPrefixOf_self_append needle post)
  | cons c pre ih => simpa using hasSubstring_cons c ih

/-- C1: a first snapshot with `isChallenge = true` while headless mode is not
explicitly disabled makes `parseProduct` fail with the antibot-challenge
error (whose message carries the challenge token when one is present)
immediately after the initial page evaluation: the event trace shows no
manual-retry step and no extraction, and no `ProductInfo` is returned. -/
theorem challenge_headless_fatal (options : ParserOptions)
    (eval1 eval2 : EvaluationResult)
    (hch : eval1.isChallenge = true)
    (hhl : options.headless ≠ some false) :
    (parseProductChallengePhase options eval1 eval2).1 =
      Except.error (challengeDetails eval1.challengeToken ++
        " Try running with residential proxies, solving the challenge in a browser and reusing cookies, or slowing down navigation.") ∧
    (parseProductChallengePhase options eval1 eval2).2 = [ParseEvent.evaluate] ∧
    (∀ t, eval1.challengeToken = some t →
      hasSubstring t.data (challengeDetails eval1.challengeToken).data = true) ∧
    (∀ info,
      (parseProductChallengePhase options eval1 eval2).1 ≠ Except.ok info) := by
  have hphase :
      parseProductChallengePhase options eval1 eval2 =
        (Except.error (challengeDetails eval1.challengeToken ++
          " Try running with residential proxies, solving the challenge in a browser and reusing cookies, or slowing down navigation."),
         [ParseEvent.evaluate]) := by
    simp [parseProductChallengePhase, hch, hhl]
  refine ⟨by rw [hphase], by rw [hphase], ?_, by rw [hphase]; intro info; simp⟩
  intro t ht
  rw [ht]
  show hasSubstring t.data
    ("Encountered Ozon antibot challenge (token " ++ t ++ ").").data = true
  have : ("Encountered Ozon antibot challenge (token " ++ t ++ ").").data =
      "Encountered Ozon antibot challenge (token ".data ++ t.data ++ ").".data := by
    simp
  rw [this]
  exact hasSubstring_of_append _ _ _

/-- Closed witness for `challenge_headless_fatal`. -/
theorem challenge_headless_fatal_witness :
    (parseProductChallengePhase { url := "https://x" }
      { isChallenge := true, challengeToken := some "tok42", heading := none,
        priceText := none, product := none, breadcrumbs := [] }
      { isChallenge := false, challengeToken := none, heading := none,
        priceText := none, product := none, breadcrumbs := [] }).2 =
      [ParseEvent.evaluate] ∧
    hasSubstring "tok42".data
      (challengeDetails (some "tok42")).data = true := by
  have h := challenge_headless_fatal { url := "https://x" }
    { isChallenge := true, challengeToken := some "tok42", heading := none,
      priceText := none, product := none, breadcrumbs := [] }
    { isChallenge := false, challengeToken := none, heading := none,
      priceText := none, product := none, breadcrumbs := [] }
    rfl (by decide)
  exact ⟨h.2.1, h.2.2.1 "tok42" rfl⟩

/-- C2: a first challenge snapshot in headful mode (`headless = false`) leads
to exactly one manual-wait-then-reevaluate cycle; a still-challenged second
snapshot yields the error whose message contains "Still active after manual
retry", a clean second snapshot proceeds to normal extraction; the trace
never contains a second manual-wait. -/
theorem challenge_headful_single_retry (options : ParserOptions)
    (eval1 eval2 : EvaluationResult)
    (hch : eval1.isChallenge = true)
    (hhl : options.headless = some false) :
    (parseProductChallengePhase options eval1 eval2).2.count
        ParseEvent.waitUserSignal = 1 ∧
    (eval2.isChallenge = true →
      (parseProductChallengePhase options eval1 eval2).1 =
        Except.error (challengeDetails eval1.challengeToken ++
          " Still active after manual retry. Try re-running once the challenge is fully cleared.") ∧
      hasSubstring "Still active after manual retry".data
        (challengeDetails eval1.challengeToken ++
          " Still active after manual retry. Try re-running once the challenge is fully cleared.").data = true ∧
      (parseProductChallengePhase options eval1 eval2).2 =
        [ParseEvent.evaluate, ParseEvent.warnChallenge,
         ParseEvent.waitUserSignal, ParseEvent.waitNavigation,
         ParseEvent.evaluate]) ∧
    (eval2.isChallenge = false →
      (parseProductChallengePhase options eval1 eval2).1 =
        Except.ok (normalizeProductInfo eval2 options.url) ∧
      (parseProductChallengePhase options eval1 eval2).2 =
        [ParseEvent.evaluate, ParseEvent.warnChallenge,
         ParseEvent.waitUserSignal, ParseEvent.waitNavigation,
         ParseEvent.evaluate, ParseEvent.extract]) := by
  have hmsg : hasSubstring "Still active after manual retry".data
      (challengeDetails eval1.challengeToken ++
        " Still active after manual retry. Try re-running once the challenge is fully cleared.").data = true := by
    have hdecomp :
        (challengeDetails eval1.challengeToken ++
          " Still active after manual retry. Try re-running once the challenge is fully cleared.").data =
        (challengeDetails eval1.challengeToken ++ " ").data ++
          "Still active after manual retry".data ++
          ". Try re-running once the challenge is fully cleared.".data := by
      simp
    rw [hdecomp]
    exact hasSubstring_of_append _ _ _
  cases h2 : eval2.isChallenge with
  | true =>
    have hphase :
        parseProductChallengePhase options eval1 eval2 =
          (Except.error (challengeDetails eval1.challengeToken ++
            " Still active after manual retry. Try re-running once the challenge is fully cleared."),
           [ParseEvent.evaluate, ParseEvent.warnChallenge,
            ParseEvent.waitUserSignal, ParseEvent.waitNavigation,
            ParseEvent.evaluate]) := by
      simp [parseProductChallengePhase, hch, hhl, h2]
    refine ⟨by rw [hphase]; rfl, fun _ => ⟨by rw [hphase], hmsg, by rw [hphase]⟩,
      fun hfalse => absurd hfalse (by decide)⟩
  | false =>
    have hphase :
        parseProductChallengePhase options eval1 eval2 =
          (Except.ok (normalizeProductInfo eval2 options.url),
           [ParseEvent.evaluate, ParseEvent.warnChallenge,
            ParseEvent.waitUserSignal, ParseEvent.waitNavigation,
            ParseEvent.evaluate, ParseEvent.extract]) := by
      simp [parseProductChallengePhase, hch, hhl, h2]
    refine ⟨by rw [hphase]; rfl,
      fun htrue => absurd htrue (by decide),
      fun _ => ⟨by rw [hphase], by rw [hphase]⟩⟩

/-- Closed witness for `challenge_headful_single_retry`. -/
theorem challenge_headful_single_retry_witness :
    (parseProductChallengePhase { url := "https://x", headless := some false }
      { isChallenge := true, challengeToken := none, heading := none,
        priceText := none, product := none, breadcrumbs := [] }
      { isChallenge := true, challengeToken := none, heading := none,
        priceText := none, product := none, breadcrumbs := [] }).2.count
        ParseEvent.waitUserSignal = 1 ∧
    hasSubstring "Still active after manual retry".data
      (challengeDetails none ++
        " Still active after manual retry. Try re-running once the challenge is fully cleared.").data = true := by
  have h := challenge_headful_single_retry
    { url := "https://x", headless := some false }
    { isChallenge := true, challengeToken := none, heading := none,
      priceText := none, product := none, breadcrumbs := [] }
    { isChallenge := true, challengeToken := none, heading := none,
      priceText := none, product := none, breadcrumbs := [] }
    rfl rfl
  exact ⟨h.1, (h.2.1 rfl).2.1⟩

/-- C4: breadcrumb extraction concatenates the items of the `BreadcrumbList`
nodes in document order, keeping duplicates: extraction distributes over
node-list concatenation, non-breadcrumb nodes contribute nothing, a direct
string `name` on a list item wins over the nested `item.name`, the nested
name is used when no direct one exists, and the spec's two-node example
yields `["A", "B", "A", "C"]`. -/
theorem breadcrumbs_document_order :
    (∀ ns1 ns2 : List Json,
      extractBreadcrumbs (ns1 ++ ns2) =
        extractBreadcrumbs ns1 ++ extractBreadcrumbs ns2) ∧
    (∀ node, isBreadcrumbListNode node = false →
      extractBreadcrumbs [node] = []) ∧
    (∀ node, isBreadcrumbListNode node = true →
      extractBreadcrumbs [node] = breadcrumbItems node) ∧
    (∀ (s : String) (fields : List (String × Json)),
      breadcrumbLabel (.obj (("name", .str s) :: fields)) = some s) ∧
    (∀ s : String,
      breadcrumbLabel (.obj [("item", .obj [("name", .str s)])]) = some s) ∧
    extractBreadcrumbs
      [.obj [("@type", .str "BreadcrumbList"),
             ("itemListElement",
               .arr [.obj [("name", .str "A")], .obj [("name", .str "B")]])],
       .obj [("@type", .str "BreadcrumbList"),
             ("itemListElement",
               .arr [.obj [("name", .str "A")], .obj [("name", .str "C")]])]] =
      ["A", "B", "A", "C"] := by
  refine ⟨?_, ?_, ?_, ?_, ?_, rfl⟩
  · intro ns1 ns2
    simp [extractBreadcrumbs, List.filter_append]
  · intro node h
    simp [extractBreadcrumbs, h]
  · intro node h
    simp [extractBreadcrumbs, h]
  · intro s fields
    simp [breadcrumbLabel, jsGet, jsCoalesce, List.find?]
  · intro s
    rfl

/-- C7: when the session was attached (`ownsBrowser = false`), every teardown
site of every scenario invokes only the non-destructive `disconnect`
operation, never `close`, on success and failure paths alike. -/
theorem attached_session_never_closed (connected success : Bool)
    (po : ParserOptions) (ro : RunOptions) :
    (parseProductFinallyActions false connected po).all
        (fun a => a == TeardownAction.disconnect) = true ∧
    (cleanupBrowserActions false connected).all
        (fun a => a == TeardownAction.disconnect) = true ∧
    (finishSimpleScenarioActions false connected ro).all
        (fun a => a == TeardownAction.disconnect) = true ∧
    (openProductTeardownActions success false connected ro).all
        (fun a => a == TeardownAction.disconnect) = true := by
  cases connected <;> cases success <;>
    refine ⟨?_, ?_, ?_, ?_⟩ <;>
      simp [parseProductFinallyActions, cleanupBrowserActions,
        finishSimpleScenarioActions, openProductTeardownActions,
        openProductCatchActions]

/-- C9 counterexample: a snapshot with an empty-string DOM heading and no
JSON-LD product name yields an empty `title`, so `normalizeProductInfo` can
return an empty title. -/
theorem normalize_title_empty_counterexample :
    (normalizeProductInfo
      { isChallenge := false, challengeToken := none, heading := some "",
        priceText := none, product := none, breadcrumbs := [] }
      "https://example.test/p").title = "" := rfl

theorem jsToString_ne_empty {x : Option Json} {n : String}
    (h : jsToString x = some n) : n ≠ "" := by
  rcases x with _ | j
  · simp [jsToString] at h
  · cases j <;> simp [jsToString] at h
    case str s =>
      rcases h with ⟨hlen, rfl⟩
      intro hempty
      rw [hempty] at hlen
      simp at hlen

/-- C9 (amended): the title is the JSON-LD name when that is a non-empty
string, else the DOM heading whenever the heading is non-null (including the
empty string), else the literal "Unknown product"; the result is non-empty
for every snapshot whose heading is not the empty string — the code does not
guard against an empty DOM heading. -/
theorem normalize_title_fallback (evaluation : EvaluationResult) (url : String)
    (hhead : evaluation.heading ≠ some "") :
    (normalizeProductInfo evaluation url).title =
      (match jsToString (jsGet (productOrEmpty evaluation.product) "name") with
       | some n => n
       | none =>
         match evaluation.heading with
         | some h => h
         | none => "Unknown product") ∧
    (normalizeProductInfo evaluation url).title ≠ "" := by
  have htitle : (normalizeProductInfo evaluation url).title =
      (match jsToString (jsGet (productOrEmpty evaluation.product) "name") with
       | some n => n
       | none =>
         match evaluation.heading with
         | some h => h
         | none => "Unknown product") := rfl
  refine ⟨htitle, ?_⟩
  rw [htitle]
  cases hname : jsToString (jsGet (productOrEmpty evaluation.product) "name") with
  | some n => exact jsToString_ne_empty hname
  | none =>
    cases hh : evaluation.heading with
    | some h =>
      intro hempty
      apply hhead
      rw [hh]
      simp at hempty
      rw [hempty]
    | none => decide

/-- Closed witness for `normalize_title_fallback`. -/
theorem normalize_title_fallback_witness :
    (normalizeProductInfo
      { isChallenge := false, challengeToken := none, heading := some "H",
        priceText := none, product := none, breadcrumbs := [] }
      "https://example.test/p").title ≠ "" :=
  (normalize_title_fallback
    { isChallenge := false, challengeToken := none, heading := some "H",
      priceText := none, product := none, breadcrumbs := [] }
    "https://example.test/p" (by decide)).2

/-- C5 counterexample: a non-2xx (redirect) discovery response with a
well-formed body yields an attached session instead of a connection error —
the code only rejects statuses ≥ 400. -/
theorem redirect_discovery_yields_session :
    acquireBrowser { url := "https://x", connectPort := some 9222 }
      { status := 302,
        body := some (.obj [("webSocketDebuggerUrl",
          .str "ws://127.0.0.1:9222/devtools/browser/abc")]) } =
      Except.ok
        { ownsBrowser := false,
          endpoint := some "ws://127.0.0.1:9222/devtools/browser/abc" } := rfl

/-- C5 (amended): given only a connect port, every discovery response whose
status is at least 400, or whose body is not JSON, or whose body lacks a
non-empty string `webSocketDebuggerUrl`, makes `acquireBrowser` throw the
connection error and never return a session (a 1xx/3xx status with a
well-formed body, however, does yield a session). -/
theorem acquireBrowser_rejects_bad_discovery (options : ParserOptions)
    (resp : JsonVersionResponse)
    (hep : options.connectEndpoint = none)
    (hport : options.connectPort.isSome = true)
    (hbad : 400 ≤ resp.status ∨ resp.body = none ∨
      (∀ b, resp.body = some b → extractWsUrl b = none)) :
    acquireBrowser options resp =
      Except.error ("Unable to resolve WebSocket endpoint from port " ++
        portText options.connectPort ++
        ". Ensure the browser exposes /json/version.") ∧
    ∀ r, acquireBrowser options resp ≠ Except.ok r := by
  have hres : resolveEndpointFromPort resp = none := by
    by_cases hst : 400 ≤ resp.status
    · simp [resolveEndpointFromPort, hst]
    · rcases hbad with h | h | h
      · exact absurd h hst
      · simp [resolveEndpointFromPort, hst, h]
      · cases hb : resp.body with
        | none => simp [resolveEndpointFromPort, hst, hb]
        | some b => simp [resolveEndpointFromPort, hst, hb, h b hb]
  have hacq : acquireBrowser options resp =
      Except.error ("Unable to resolve WebSocket endpoint from port " ++
        portText options.connectPort ++
        ". Ensure the browser exposes /json/version.") := by
    unfold acquireBrowser
    rw [hep]
    simp [strTruthy, hport, hres]
  exact ⟨hacq, by rw [hacq]; intro r; simp⟩

/-- Closed witness for `acquireBrowser_rejects_bad_discovery`. -/
theorem acquireBrowser_rejects_bad_discovery_witness :
    acquireBrowser { url := "https://x", connectPort := some 9222 }
      { status := 500, body := none } =
      Except.error ("Unable to resolve WebSocket endpoint from port " ++
        portText (some 9222) ++ ". Ensure the browser exposes /json/version.") :=
  (acquireBrowser_rejects_bad_discovery
    { url := "https://x", connectPort := some 9222 }
    { status := 500, body := none } rfl rfl (Or.inl (by decide))).1

/-- C6 counterexample: an open-only scenario run that succeeds with an owned,
still-connected browser performs no teardown action at all — the owned
session is not closed on this exit path. -/
theorem open_only_success_skips_close :
    openProductTeardownActions true true true
      { url := "https://www.ozon.ru/product/x", output := OutputFormat.text,
        scenario := CliScenario.openProduct } = [] := rfl

/-- C6 (amended): an owned, still-connected session is closed on both exit
paths of the full-parse scenario and on every error path of the simple
scenarios; on a simple scenario's success path `finishSimpleScenario` closes
it only when the configured scenario is `parseProduct` — open-only scenario
successes leave the owned session connected. -/
theorem owned_session_teardown_paths (po : ParserOptions) (ro : RunOptions) :
    TeardownAction.close ∈ parseProductFinallyActions true true po ∧
    TeardownAction.close ∈ openProductCatchActions true true ∧
    TeardownAction.close ∈ cleanupBrowserActions true true ∧
    (ro.scenario = CliScenario.parseProduct →
      TeardownAction.close ∈ finishSimpleScenarioActions true true ro) ∧
    (ro.scenario ≠ CliScenario.parseProduct →
      TeardownAction.close ∉ finishSimpleScenarioActions true true ro) := by
  refine ⟨?_, by decide, by decide, ?_, ?_⟩
  · simp only [parseProductFinallyActions]
    split <;> simp
  · intro h
    simp only [finishSimpleScenarioActions, h]
    split <;> simp
  · intro h
    simp only [finishSimpleScenarioActions]
    split <;> simp [h]

/-- Closed witness for `owned_session_teardown_paths`. -/
theorem owned_session_teardown_paths_witness :
    TeardownAction.close ∈ parseProductFinallyActions true true { url := "u" } ∧
    TeardownAction.close ∈ finishSimpleScenarioActions true true
      { url := "u", output := OutputFormat.text,
        scenario := CliScenario.parseProduct } ∧
    TeardownAction.close ∉ finishSimpleScenarioActions true true
      { url := "u", output := OutputFormat.text,
        scenario := CliScenario.openProduct } := by
  have h1 := owned_session_teardown_paths { url := "u" }
    { url := "u", output := OutputFormat.text,
      scenario := CliScenario.parseProduct }
  have h2 := owned_session_teardown_paths { url := "u" }
    { url := "u", output := OutputFormat.text,
      scenario := CliScenario.openProduct }
  exact ⟨h1.1, h1.2.2.2.1 rfl, h2.2.2.2.2 (by decide)⟩

/-! ### Character-class and separator lemmas for the numeric coercion -/

theorem keepNumeric_enum {c : Char} (h : keepNumericChar c = true) :
    c = '0' ∨ c = '1' ∨ c = '2' ∨ c = '3' ∨ c = '4' ∨ c = '5' ∨ c = '6' ∨
      c = '7' ∨ c = '8' ∨ c = '9' ∨ c = '.' ∨ c = ',' := by
  simp [keepNumericChar, isAsciiDigit] at h
  tauto

theorem keepNumeric_not_white {c : Char} (h : keepNumericChar c = true) :
    jsWhite c = false := by
  rcases keepNumeric_enum h with
    rfl|rfl|rfl|rfl|rfl|rfl|rfl|rfl|rfl|rfl|rfl|rfl <;> rfl

theorem keepNumeric_not_sign {c : Char} (h : keepNumericChar c = true) :
    c ≠ '+' ∧ c ≠ '-' ∧ c ≠ 'I' := by
  rcases keepNumeric_enum h with
    rfl|rfl|rfl|rfl|rfl|rfl|rfl|rfl|rfl|rfl|rfl|rfl <;>
    exact ⟨by decide, by decide, by decide⟩

theorem keepNumeric_sep_of_not_digit {c : Char} (h : keepNumericChar c = true)
    (hd : isAsciiDigit c = false) : c = '.' ∨ c = ',' := by
  rcases keepNumeric_enum h with
    rfl|rfl|rfl|rfl|rfl|rfl|rfl|rfl|rfl|rfl|rfl|rfl <;>
    first
      | exact absurd hd (by decide)
      | exact Or.inl rfl
      | exact Or.inr rfl

theorem dropWhile_eq_self_of_all {p : Char → Bool} :
    ∀ {l : List Char}, (∀ c ∈ l, p c = false) → l.dropWhile p = l
  | [], _ => rfl
  | c :: cs, h => by
    rw [List.dropWhile_cons, h c (List.mem_cons_self c cs)]
    simp

theorem trimWsList_eq_self {t : List Char}
    (h : ∀ c ∈ t, jsWhite c = false) : trimWsList t = t := by
  unfold trimWsList
  rw [dropWhile_eq_self_of_all h]
  rw [dropWhile_eq_self_of_all (fun c hc => h c (List.mem_reverse.mp hc))]
  exact List.reverse_reverse t

theorem mem_dropWhile_of_not {p : Char → Bool} {a : Char} :
    ∀ {l : List Char}, a ∈ l → p a = false → a ∈ l.dropWhile p := by
  intro l
  induction l with
  | nil => intro h _; cases h
  | cons c cs ih =>
    intro hmem hpa
    rw [List.dropWhile_cons]
    split
    · rename_i hpc
      rcases List.mem_cons.mp hmem with rfl | hm
      · simp [hpa] at hpc
      · exact ih hm hpa
    · exact hmem

theorem head_dropWhile_not {p : Char → Bool} :
    ∀ {l : List Char} {c : Char} {r : List Char},
      l.dropWhile p = c :: r → p c = false := by
  intro l
  induction l with
  | nil => intro c r h; simp at h
  | cons d ds ih =>
    intro c r h
    rw [List.dropWhile_cons] at h
    split at h
    · exact ih h
    · rename_i hpd
      injection h with h1 _
      subst h1
      simpa using hpd

theorem mem_of_mem_dropWhile {p : Char → Bool} :
    ∀ {l : List Char} {a : Char}, a ∈ l.dropWhile p → a ∈ l := by
  intro l
  induction l with
  | nil => intro a h; simp at h
  | cons c cs ih =>
    intro a h
    rw [List.dropWhile_cons] at h
    split at h
    · exact List.mem_cons_of_mem c (ih h)
    · exact h

theorem count_dropWhile_of_not {p : Char → Bool} {a : Char}
    (hpa : p a = false) :
    ∀ l : List Char, (l.dropWhile p).count a = l.count a := by
  intro l
  induction l with
  | nil => rfl
  | cons c cs ih =>
    rw [List.dropWhile_cons]
    split
    · rename_i hpc
      have hac : a ≠ c := by
        intro he
        rw [he] at hpa
        simp [hpa] at hpc
      rw [ih, List.count_cons_of_ne hac]
    · rfl

theorem parseFracPart_sep_none {mant frac rest4 : List Char} {e : Char}
    (h1 : e ≠ 'e') (h2 : e ≠ 'E') :
    parseFracPart mant frac (e :: rest4) = none := by
  unfold parseFracPart
  split
  · rfl
  · simp [h1, h2]

theorem parseUnsignedDec_comma {t : List Char}
    (halpha : ∀ c ∈ t, keepNumericChar c = true) (hc : ',' ∈ t) :
    parseUnsignedDec t = none := by
  unfold parseUnsignedDec
  have h1 : ',' ∈ t.dropWhile isAsciiDigit :=
    mem_dropWhile_of_not hc (by decide)
  cases hrest : t.dropWhile isAsciiDigit with
  | nil => rw [hrest] at h1; cases h1
  | cons c rest2 =>
    rw [hrest] at h1
    have hcd : isAsciiDigit c = false := head_dropWhile_not hrest
    have hcmem : c ∈ t :=
      mem_of_mem_dropWhile (hrest ▸ List.mem_cons_self c rest2)
    rcases keepNumeric_sep_of_not_digit (halpha c hcmem) hcd with hdot | hcomma
    · subst hdot
      have hc2 : ',' ∈ rest2 := by
        rcases List.mem_cons.mp h1 with he | hm
        · exact absurd he (by decide)
        · exact hm
      have hstep : parseAfterMant (t.takeWhile isAsciiDigit) ('.' :: rest2) =
          parseFracPart (t.takeWhile isAsciiDigit)
            (rest2.takeWhile isAsciiDigit) (rest2.dropWhile isAsciiDigit) := by
        simp [parseAfterMant]
      rw [hstep]
      have h3 : ',' ∈ rest2.dropWhile isAsciiDigit :=
        mem_dropWhile_of_not hc2 (by decide)
      cases hrest3 : rest2.dropWhile isAsciiDigit with
      | nil => rw [hrest3] at h3; cases h3
      | cons e rest4 =>
        have hed : isAsciiDigit e = false := head_dropWhile_not hrest3
        have hemem : e ∈ t := by
          have he2 : e ∈ rest2 :=
            mem_of_mem_dropWhile (hrest3 ▸ List.mem_cons_self e rest4)
          exact mem_of_mem_dropWhile
            (hrest ▸ List.mem_cons_of_mem '.' he2)
        rcases keepNumeric_sep_of_not_digit (halpha e hemem) hed with h4 | h4 <;>
          subst h4 <;>
          exact parseFracPart_sep_none (by decide) (by decide)
    · subst hcomma
      simp [parseAfterMant]

theorem parseUnsignedDec_twodots {t : List Char}
    (halpha : ∀ c ∈ t, keepNumericChar c = true)
    (hnc : ',' ∉ t) (hd : 2 ≤ t.count '.') : parseUnsignedDec t = none := by
  unfold parseUnsignedDec
  have hcount : (t.dropWhile isAsciiDigit).count '.' = t.count '.' :=
    count_dropWhile_of_not (by decide) t
  cases hrest : t.dropWhile isAsciiDigit with
  | nil => rw [hrest] at hcount; simp at hcount; omega
  | cons c rest2 =>
    rw [hrest] at hcount
    have hcd : isAsciiDigit c = false := head_dropWhile_not hrest
    have hcmem : c ∈ t :=
      mem_of_mem_dropWhile (hrest ▸ List.mem_cons_self c rest2)
    have hcnc : c ≠ ',' := fun he => hnc (he ▸ hcmem)
    rcases keepNumeric_sep_of_not_digit (halpha c hcmem) hcd with hdot | hcomma
    · subst hdot
      have hc2 : 1 ≤ rest2.count '.' := by
        rw [List.count_cons_self] at hcount
        omega
      have hstep : parseAfterMant (t.takeWhile isAsciiDigit) ('.' :: rest2) =
          parseFracPart (t.takeWhile isAsciiDigit)
            (rest2.takeWhile isAsciiDigit) (rest2.dropWhile isAsciiDigit) := by
        simp [parseAfterMant]
      rw [hstep]
      have hcount3 : (rest2.dropWhile isAsciiDigit).count '.' =
          rest2.count '.' := count_dropWhile_of_not (by decide) rest2
      cases hrest3 : rest2.dropWhile isAsciiDigit with
      | nil => rw [hrest3] at hcount3; simp at hcount3; omega
      | cons e rest4 =>
        have hed : isAsciiDigit e = false := head_dropWhile_not hrest3
        have hemem : e ∈ t := by
          have he2 : e ∈ rest2 :=
            mem_of_mem_dropWhile (hrest3 ▸ List.mem_cons_self e rest4)
          exact mem_of_mem_dropWhile
            (hrest ▸ List.mem_cons_of_mem '.' he2)
        have hene : e ≠ ',' := fun he => hnc (he ▸ hemem)
        rcases keepNumeric_sep_of_not_digit (halpha e hemem) hed with h4 | h4
        · subst h4
          exact parseFracPart_sep_none (by decide) (by decide)
        · exact absurd h4 hene
    · exact absurd hcomma hcnc

theorem radixPrefixed_false_of_alpha {t : List Char}
    (halpha : ∀ c ∈ t, keepNumericChar c = true) : radixPrefixed t = false := by
  cases t with
  | nil => rfl
  | cons c0 tl =>
    cases tl with
    | nil => rfl
    | cons c1 tl2 =>
      have h1 := halpha c1 (List.mem_cons_of_mem c0 (List.mem_cons_self c1 tl2))
      rcases keepNumeric_enum h1 with
        rfl|rfl|rfl|rfl|rfl|rfl|rfl|rfl|rfl|rfl|rfl|rfl <;>
        simp [radixPrefixed]

theorem parseSignedDec_restricted {t : List Char}
    (halpha : ∀ c ∈ t, keepNumericChar c = true) (hne : t ≠ []) :
    parseSignedDec t = parseUnsignedDec t := by
  cases t with
  | nil => exact absurd rfl hne
  | cons c r =>
    obtain ⟨h1, h2, hI⟩ := keepNumeric_not_sign (halpha c (List.mem_cons_self c r))
    have hInf : (c :: r) ≠ "Infinity".data := by
      intro he
      have hfold : "Infinity".data = 'I' :: "nfinity".data := rfl
      rw [hfold] at he
      injection he with hhd _
      exact hI hhd
    simp [parseSignedDec, h1, h2, parseUnsignedOrInf, hInf]

theorem jsStr_restricted {t : List Char}
    (halpha : ∀ c ∈ t, keepNumericChar c = true) :
    jsStrToNumberFinite (String.mk t) =
      if t.isEmpty then some 0 else parseUnsignedDec t := by
  unfold jsStrToNumberFinite
  show (if (trimWsList t).isEmpty then some 0
    else if radixPrefixed (trimWsList t) then parseRadixLiteral (trimWsList t)
    else parseSignedDec (trimWsList t)) = _
  rw [trimWsList_eq_self (fun c hc => keepNumeric_not_white (halpha c hc))]
  by_cases he : t.isEmpty
  · simp [he]
  · have hne : t ≠ [] := by
      intro h0
      rw [h0] at he
      exact he rfl
    simp [he, radixPrefixed_false_of_alpha halpha,
      parseSignedDec_restricted halpha hne]

theorem jsStr_comma_none {t : List Char}
    (halpha : ∀ c ∈ t, keepNumericChar c = true) (hc : ',' ∈ t) :
    jsStrToNumberFinite (String.mk t) = none := by
  rw [jsStr_restricted halpha]
  have hne : t ≠ [] := List.ne_nil_of_mem hc
  rw [if_neg (by simp [hne])]
  exact parseUnsignedDec_comma halpha hc

theorem jsStr_twodots_none {t : List Char}
    (halpha : ∀ c ∈ t, keepNumericChar c = true)
    (hnc : ',' ∉ t) (hd : 2 ≤ t.count '.') :
    jsStrToNumberFinite (String.mk t) = none := by
  rw [jsStr_restricted halpha]
  have hne : t ≠ [] := by
    intro h0
    rw [h0] at hd
    simp at hd
  rw [if_neg (by simp [hne])]
  exact parseUnsignedDec_twodots halpha hnc hd

theorem replaceFirstComma_count_zero {t : List Char} (h : t.count ',' = 0) :
    replaceFirstComma t = t := by
  induction t with
  | nil => rfl
  | cons c cs ih =>
    by_cases hc : c = ','
    · subst hc
      rw [List.count_cons_self] at h
      omega
    · have hcs : cs.count ',' = 0 := by
        rwa [List.count_cons_of_ne (Ne.symm hc)] at h
      show (if c = ',' then '.' :: cs else c :: replaceFirstComma cs) = c :: cs
      rw [if_neg hc, ih hcs]

theorem map_commaToDot_count_zero {t : List Char} (h : t.count ',' = 0) :
    t.map commaToDot = t := by
  induction t with
  | nil => rfl
  | cons c cs ih =>
    by_cases hc : c = ','
    · subst hc
      rw [List.count_cons_self] at h
      omega
    · have hcs : cs.count ',' = 0 := by
        rwa [List.count_cons_of_ne (Ne.symm hc)] at h
      rw [List.map_cons, ih hcs]
      congr 1
      simp [commaToDot, hc]

theorem replaceFirstComma_eq_map {t : List Char} (h : t.count ',' ≤ 1) :
    replaceFirstComma t = t.map commaToDot := by
  induction t with
  | nil => rfl
  | cons c cs ih =>
    by_cases hc : c = ','
    · subst hc
      have hcs : cs.count ',' = 0 := by
        rw [List.count_cons_self] at h
        omega
      show (if (',' : Char) = ',' then '.' :: cs else _) = _
      rw [if_pos rfl, List.map_cons, map_commaToDot_count_zero hcs]
      rfl
    · have hcs : cs.count ',' ≤ 1 := by
        rwa [List.count_cons_of_ne (Ne.symm hc)] at h
      show (if c = ',' then '.' :: cs else c :: replaceFirstComma cs) = _
      rw [if_neg hc, List.map_cons, ih hcs]
      congr 1
      simp [commaToDot, hc]

theorem comma_mem_replaceFirstComma {t : List Char} (h : 2 ≤ t.count ',') :
    ',' ∈ replaceFirstComma t := by
  induction t with
  | nil => simp at h
  | cons c cs ih =>
    by_cases hc : c = ','
    · subst hc
      have h1 : 1 ≤ cs.count ',' := by
        rw [List.count_cons_self] at h
        omega
      have hmem : ',' ∈ cs := by
        by_contra hnm
        rw [List.count_eq_zero_of_not_mem hnm] at h1
        omega
      show ',' ∈ (if (',' : Char) = ',' then '.' :: cs else _)
      rw [if_pos rfl]
      exact List.mem_cons_of_mem _ hmem
    · have h2 : 2 ≤ cs.count ',' := by
        rwa [List.count_cons_of_ne (Ne.symm hc)] at h
      show ',' ∈ (if c = ',' then '.' :: cs else c :: replaceFirstComma cs)
      rw [if_neg hc]
      exact List.mem_cons_of_mem _ (ih h2)

theorem alpha_replaceFirstComma :
    ∀ {t : List Char}, (∀ c ∈ t, keepNumericChar c = true) →
      ∀ c ∈ replaceFirstComma t, keepNumericChar c = true := by
  intro t
  induction t with
  | nil => intro _ c h; simp [replaceFirstComma] at h
  | cons d ds ih =>
    intro halpha c hmem
    by_cases hd : d = ','
    · subst hd
      rw [show replaceFirstComma (',' :: ds) = '.' :: ds from by
        simp [replaceFirstComma]] at hmem
      rcases List.mem_cons.mp hmem with rfl | hm
      · decide
      · exact halpha c (List.mem_cons_of_mem _ hm)
    · rw [show replaceFirstComma (d :: ds) = d :: replaceFirstComma ds from by
        simp [replaceFirstComma, hd]] at hmem
      rcases List.mem_cons.mp hmem with rfl | hm
      · exact halpha c (List.mem_cons_self c ds)
      · exact ih (fun x hx => halpha x (List.mem_cons_of_mem _ hx)) c hm

theorem alpha_map_commaToDot {t : List Char}
    (halpha : ∀ c ∈ t, keepNumericChar c = true) :
    ∀ c ∈ t.map commaToDot, keepNumericChar c = true := by
  intro c hmem
  rcases List.mem_map.mp hmem with ⟨d, hd, rfl⟩
  have hkeep := halpha d hd
  by_cases hdc : d = ','
  · subst hdc
    decide
  · rw [show commaToDot d = d from by simp [commaToDot, hdc]]
    exact hkeep

theorem comma_not_mem_map_commaToDot (t : List Char) :
    ',' ∉ t.map commaToDot := by
  intro h
  rcases List.mem_map.mp h with ⟨d, _, he⟩
  by_cases hd : d = ','
  · rw [hd] at he
    exact absurd he (by decide)
  · rw [show commaToDot d = d from by simp [commaToDot, hd]] at he
    exact hd he

theorem count_dot_map_commaToDot :
    ∀ t : List Char, (t.map commaToDot).count '.' = t.count '.' + t.count ',' := by
  intro t
  induction t with
  | nil => rfl
  | cons c cs ih =>
    rw [List.map_cons]
    by_cases hc : c = ','
    · subst hc
      rw [show commaToDot ',' = '.' from rfl, List.count_cons_self,
        List.count_cons_self, List.count_cons_of_ne (by decide), ih]
      omega
    · rw [show commaToDot c = c from by simp [commaToDot, hc],
        List.count_cons_of_ne (Ne.symm hc)]
      by_cases hdot : c = '.'
      · subst hdot
        rw [List.count_cons_self, List.count_cons_self, ih]
        omega
      · rw [List.count_cons_of_ne (Ne.symm hdot),
          List.count_cons_of_ne (Ne.symm hdot), ih]

/-- C3: the spec's numeric-normalization examples hold — a snapshot with
price text `"7 999 ₽"` (and no structured-data price or currency) yields
`value = 7999`, `currency = "RUB"`, and `"$19.99"` yields `value = 19.99`,
`currency = "USD"` — and the general coercion is exactly the spec's
description: strip everything but digits, comma and period, treat comma as a
decimal separator, and yield null when the result is not a finite number
(`toNumber` rewrites only the first comma, but that is extensionally equal to
rewriting every comma). -/
theorem price_coercion_spec :
    ((normalizeProductInfo
        { isChallenge := false, challengeToken := none, heading := some "Demo",
          priceText := some "7 999 ₽", product := none, breadcrumbs := [] }
        "https://example.test/p").price.value = some 7999 ∧
      (normalizeProductInfo
        { isChallenge := false, challengeToken := none, heading := some "Demo",
          priceText := some "7 999 ₽", product := none, breadcrumbs := [] }
        "https://example.test/p").price.currency = some "RUB") ∧
    ((normalizeProductInfo
        { isChallenge := false, challengeToken := none, heading := some "Demo",
          priceText := some "$19.99", product := none, breadcrumbs := [] }
        "https://example.test/p").price.value = some (1999 / 100 : ℚ) ∧
      (normalizeProductInfo
        { isChallenge := false, challengeToken := none, heading := some "Demo",
          priceText := some "$19.99", product := none, breadcrumbs := [] }
        "https://example.test/p").price.currency = some "USD") ∧
    (∀ s : String, toNumber (some (.str s)) = specNumericCoercion s) := by
  refine ⟨⟨by decide, by decide⟩, ⟨?_, by decide⟩, ?_⟩
  · have hv : (normalizeProductInfo
        { isChallenge := false, challengeToken := none, heading := some "Demo",
          priceText := some "$19.99", product := none, breadcrumbs := [] }
        "https://example.test/p").price.value =
        some ((digitsToNat 10 digitVal ['1', '9'] : ℚ) +
          (digitsToNat 10 digitVal ['9', '9'] : ℚ) /
            10 ^ (List.length ['9', '9'])) := rfl
    rw [hv, show digitsToNat 10 digitVal ['1', '9'] = 19 from rfl,
      show digitsToNat 10 digitVal ['9', '9'] = 99 from rfl,
      Option.some.injEq]
    norm_num
  · intro s
    show jsStrToNumberFinite
        (String.mk (replaceFirstComma (stripKeepNumeric s.data))) =
      jsStrToNumberFinite
        (String.mk ((stripKeepNumeric s.data).map commaToDot))
    have halpha : ∀ c ∈ stripKeepNumeric s.data, keepNumericChar c = true :=
      fun c hc => List.of_mem_filter hc
    rcases Nat.lt_or_ge ((stripKeepNumeric s.data).count ',') 2 with hlt | hge
    · rw [replaceFirstComma_eq_map (by omega)]
    · rw [jsStr_comma_none (alpha_replaceFirstComma halpha)
          (comma_mem_replaceFirstComma hge),
        jsStr_twodots_none (alpha_map_commaToDot halpha)
          (comma_not_mem_map_commaToDot _)
          (by rw [count_dot_map_commaToDot]; omega)]

/-- C10: `toNumber` rewrites only the first comma of the stripped string, so
every input whose stripped characters contain at least two commas, or a comma
together with a period (such as comma-grouped prices), coerces to null; in
particular `"1,234.56"` and `"1,234,567"` are treated as absent. -/
theorem toNumber_multi_separator_null :
    (∀ s : String,
      2 ≤ (stripKeepNumeric s.data).count ',' ∨
        (1 ≤ (stripKeepNumeric s.data).count ',' ∧
          1 ≤ (stripKeepNumeric s.data).count '.') →
      toNumber (some (.str s)) = none) ∧
    toNumber (some (.str "1,234.56")) = none ∧
    toNumber (some (.str "1,234,567")) = none := by
  refine ⟨?_, by decide, by decide⟩
  intro s h
  show jsStrToNumberFinite
      (String.mk (replaceFirstComma (stripKeepNumeric s.data))) = none
  have halpha : ∀ c ∈ stripKeepNumeric s.data, keepNumericChar c = true :=
    fun c hc => List.of_mem_filter hc
  rcases h with hge2 | ⟨hc1, hd1⟩
  · exact jsStr_comma_none (alpha_replaceFirstComma halpha)
      (comma_mem_replaceFirstComma hge2)
  · rcases Nat.lt_or_ge ((stripKeepNumeric s.data).count ',') 2 with hlt | hge2
    · rw [replaceFirstComma_eq_map (by omega)]
      exact jsStr_twodots_none (alpha_map_commaToDot halpha)
        (comma_not_mem_map_commaToDot _)
        (by rw [count_dot_map_commaToDot]; omega)
    · exact jsStr_comma_none (alpha_replaceFirstComma halpha)
        (comma_mem_replaceFirstComma hge2)

/-- Closed witness for `toNumber_multi_separator_null`. -/
theorem toNumber_multi_separator_null_witness :
    2 ≤ (stripKeepNumeric "1,2,3".data).count ',' ∧
      toNumber (some (.str "1,2,3")) = none :=
  ⟨by decide,
    toNumber_multi_separator_null.1 "1,2,3" (Or.inl (by decide))⟩

/-! ### Connect-conflict lemmas for `parseCli` -/

theorem npmFlag_connectEndpoint (cond : Bool) (f : CliOptions → CliOptions)
    (x : CliOptions) (hf : ∀ y, (f y).connectEndpoint = y.connectEndpoint) :
    (npmFlag cond f x).connectEndpoint = x.connectEndpoint := by
  unfold npmFlag
  split
  · exact hf x
  · rfl

theorem npmFlag_connectPort (cond : Bool) (f : CliOptions → CliOptions)
    (x : CliOptions) (hf : ∀ y, (f y).connectPort = y.connectPort) :
    (npmFlag cond f x).connectPort = x.connectPort := by
  unfold npmFlag
  split
  · exact hf x
  · rfl

/-- The npm boolean-flag recoveries never touch the connect fields. -/
theorem npmFlagsPhase_connect (original argv : List String) (o : CliOptions) :
    (npmFlagsPhase original argv o).connectEndpoint = o.connectEndpoint ∧
      (npmFlagsPhase original argv o).connectPort = o.connectPort := by
  unfold npmFlagsPhase
  constructor
  · rw [npmFlag_connectEndpoint, npmFlag_connectEndpoint,
      npmFlag_connectEndpoint, npmFlag_connectEndpoint,
      npmFlag_connectEndpoint, npmFlag_connectEndpoint,
      npmFlag_connectEndpoint, npmFlag_connectEndpoint] <;>
      exact fun y => rfl
  · rw [npmFlag_connectPort, npmFlag_connectPort, npmFlag_connectPort,
      npmFlag_connectPort, npmFlag_connectPort, npmFlag_connectPort,
      npmFlag_connectPort, npmFlag_connectPort] <;>
      exact fun y => rfl

theorem npmRecoverConnectPort_shape (original args : List String)
    (index : Nat) (o : CliOptions) :
    ((npmRecoverConnectPort original args index o).connectEndpoint =
        o.connectEndpoint ∧
      (npmRecoverConnectPort original args index o).connectPort =
        o.connectPort) ∨
    ((npmRecoverConnectPort original args index o).connectEndpoint =
        o.connectEndpoint ∧ o.connectEndpoint = none) := by
  unfold npmRecoverConnectPort
  repeat' split
  all_goals
    first
      | exact Or.inl ⟨rfl, rfl⟩
      | exact Or.inr ⟨rfl, by tauto⟩

theorem npmRecoverConnectEndpoint_shape (original args : List String)
    (index : Nat) (o : CliOptions) :
    ((npmRecoverConnectEndpoint original args index o).connectEndpoint =
        o.connectEndpoint ∧
      (npmRecoverConnectEndpoint original args index o).connectPort =
        o.connectPort) ∨
    (npmRecoverConnectEndpoint original args index o).connectPort = none := by
  unfold npmRecoverConnectEndpoint
  repeat' split
  all_goals
    first
      | exact Or.inl ⟨rfl, rfl⟩
      | exact Or.inr rfl

theorem npmRecoverProxy_connect (original args : List String) (index : Nat)
    (o : CliOptions) :
    (npmRecoverProxy original args index o).connectEndpoint =
        o.connectEndpoint ∧
      (npmRecoverProxy original args index o).connectPort = o.connectPort := by
  unfold npmRecoverProxy
  repeat' split
  all_goals exact ⟨rfl, rfl⟩

theorem npmRecoverProxyUsername_connect (original args : List String)
    (index : Nat) (o : CliOptions) :
    (npmRecoverProxyUsername original args index o).connectEndpoint =
        o.connectEndpoint ∧
      (npmRecoverProxyUsername original args index o).connectPort =
        o.connectPort := by
  unfold npmRecoverProxyUsername
  repeat' split
  all_goals exact ⟨rfl, rfl⟩

theorem npmRecoverProxyPassword_connect (original args : List String)
    (index : Nat) (o : CliOptions) :
    (npmRecoverProxyPassword original args index o).connectEndpoint =
        o.connectEndpoint ∧
      (npmRecoverProxyPassword original args index o).connectPort =
        o.connectPort := by
  unfold npmRecoverProxyPassword
  repeat' split
  all_goals exact ⟨rfl, rfl⟩

theorem npmRecoverTimeout_connect (original args : List String) (index : Nat)
    (o : CliOptions) :
    (npmRecoverTimeout original args index o).connectEndpoint =
        o.connectEndpoint ∧
      (npmRecoverTimeout original args index o).connectPort = o.connectPort := by
  unfold npmRecoverTimeout
  repeat' split
  all_goals exact ⟨rfl, rfl⟩

theorem npmRecoverUrl_connect (original args : List String) (index : Nat)
    (o : CliOptions) :
    (npmRecoverUrl original args index o).connectEndpoint =
        o.connectEndpoint ∧
      (npmRecoverUrl original args index o).connectPort = o.connectPort := by
  unfold npmRecoverUrl
  repeat' split
  all_goals exact ⟨rfl, rfl⟩

/-- One npm connect-loop step preserves "a truthy endpoint comes with no
port": the port is only set while the endpoint is strictly `undefined`, and
setting the endpoint clears the port. -/
theorem npmConnectStep_inv {original args : List String} {index : Nat}
    {entry : String} {o : CliOptions}
    (h : strTruthy o.connectEndpoint = true → o.connectPort = none) :
    strTruthy (npmConnectStep original args index entry o).connectEndpoint =
        true →
      (npmConnectStep original args index entry o).connectPort = none := by
  unfold npmConnectStep
  split
  · exact h
  split
  · intro he
    rcases npmRecoverConnectPort_shape original args index o with
      ⟨h1, h2⟩ | ⟨h1, h2⟩
    · rw [h1] at he
      rw [h2]
      exact h he
    · rw [h1, h2] at he
      simp [strTruthy] at he
  split
  · intro he
    rcases npmRecoverConnectEndpoint_shape original args index o with
      ⟨h1, h2⟩ | h2
    · rw [h1] at he
      rw [h2]
      exact h he
    · exact h2
  split
  · intro he
    have hc := npmRecoverProxy_connect original args index o
    rw [hc.1] at he
    rw [hc.2]
    exact h he
  split
  · intro he
    have hc := npmRecoverProxyUsername_connect original args index o
    rw [hc.1] at he
    rw [hc.2]
    exact h he
  split
  · intro he
    have hc := npmRecoverProxyPassword_connect original args index o
    rw [hc.1] at he
    rw [hc.2]
    exact h he
  split
  · intro he
    have hc := npmRecoverTimeout_connect original args index o
    rw [hc.1] at he
    rw [hc.2]
    exact h he
  split
  · intro he
    have hc := npmRecoverUrl_connect original args index o
    rw [hc.1] at he
    rw [hc.2]
    exact h he
  · exact h

/-- The whole npm connect loop preserves the endpoint/port invariant. -/
theorem npmConnectPhase_inv {original args : List String} {o : CliOptions}
    (h : strTruthy o.connectEndpoint = true → o.connectPort = none) :
    strTruthy (npmConnectPhase original args o).connectEndpoint = true →
      (npmConnectPhase original args o).connectPort = none := by
  unfold npmConnectPhase
  generalize original.enum = l
  induction l generalizing o with
  | nil => exact h
  | cons p ps ih =>
    rw [List.foldl_cons]
    exact ih (npmConnectStep_inv h)

/-- The whole npm block preserves the endpoint/port invariant. -/
theorem npmPhase_inv {raw : Option (Option Json)} {argv args : List String}
    {opts : CliOptions}
    (h : strTruthy opts.connectEndpoint = true → opts.connectPort = none) :
    strTruthy (npmPhase raw argv args opts).connectEndpoint = true →
      (npmPhase raw argv args opts).connectPort = none := by
  match raw with
  | none => exact h
  | some none => exact h
  | some (some parsed) =>
    have hflags := npmFlagsPhase_connect (npmOriginal parsed) argv opts
    have hinv2 : strTruthy (npmFlagsPhase (npmOriginal parsed) argv
        opts).connectEndpoint = true →
        (npmFlagsPhase (npmOriginal parsed) argv opts).connectPort = none := by
      rw [hflags.1, hflags.2]
      exact h
    have hred : npmPhase (some (some parsed)) argv args opts =
        (if (npmOriginal parsed).contains "--scenario" ||
            (npmOriginal parsed).any (fun e => strStartsWith e "--scenario=") then
          match npmScenarioResult (npmOriginal parsed) with
          | some (.ok sc) =>
            npmConnectPhase (npmOriginal parsed) args
              { npmFlagsPhase (npmOriginal parsed) argv opts with
                  scenario := sc }
          | some (.error _) => npmFlagsPhase (npmOriginal parsed) argv opts
          | none =>
            npmConnectPhase (npmOriginal parsed) args
              (npmFlagsPhase (npmOriginal parsed) argv opts)
        else
          npmConnectPhase (npmOriginal parsed) args
            (npmFlagsPhase (npmOriginal parsed) argv opts)) := rfl
    rw [hred]
    split
    · split
      · exact npmConnectPhase_inv hinv2
      · exact hinv2
      · exact npmConnectPhase_inv hinv2
    · exact npmConnectPhase_inv hinv2

/-- C8 counterexample: a connect port is supplied on the real command line
and a connect endpoint through npm-forwarded arguments (`npm_config_argv`),
yet `parseCli` succeeds — no ConfigurationConflict is raised; the endpoint
silently wins and the port is cleared. -/
theorem npm_forwarded_connect_bypasses_conflict :
    parseCli ["--connect-port", "9333"]
      { npm_config_argv := some (some (.obj [("original",
          .arr [.str "--connect-endpoint=ws://x"])])) } =
      Except.ok
        { options :=
            { url := DEFAULT_PRODUCT_URL, output := OutputFormat.text,
              headless := true, timeoutMs := none, verbose := false,
              keepBrowserOpen := false, proxy := none, proxyUsername := none,
              proxyPassword := none, connectEndpoint := some "ws://x",
              connectPort := none, scenario := CliScenario.parseProduct },
          helpRequested := false } := by rfl

/-- C8 (amended): the ConfigurationConflict check covers only the values
accumulated from the environment and the real argv: whenever that phase
leaves both a truthy connect endpoint and a connect port, `parseCli` raises
'Provide either --connect-endpoint or --connect-port, not both.' during
configuration parsing, before any browser work.  Connect flags arriving only
through npm-forwarded arguments never trigger the conflict; instead every
successful parse satisfies the invariant that a truthy endpoint comes with no
port. -/
theorem connect_conflict_detection (argv : List String) (env : Env) :
    (∀ sc opts help,
      validateScenario (env.PARSER_SCENARIO.getD "parseProduct") =
        Except.ok sc →
      parseArgsLoop (argv.filter (fun a => a ≠ "--"))
        (initialOptions env sc) false = Except.ok (opts, help) →
      opts.url ≠ "" →
      strTruthy opts.connectEndpoint = true →
      opts.connectPort.isSome = true →
      parseCli argv env =
        Except.error
          "Provide either --connect-endpoint or --connect-port, not both.") ∧
    (∀ r, parseCli argv env = Except.ok r →
      strTruthy r.options.connectEndpoint = true →
      r.options.connectPort = none) := by
  constructor
  · intro sc opts help hsc hloop hurl hep hport
    unfold parseCli
    rw [hsc]
    simp only [Bind.bind, Except.bind]
    rw [hloop]
    dsimp only
    rw [if_neg hurl, if_pos ⟨hep, hport⟩]
  · intro r hok hep
    unfold parseCli at hok
    cases hsc : validateScenario (env.PARSER_SCENARIO.getD "parseProduct") with
    | error e => rw [hsc] at hok; exact absurd hok (by simp [Bind.bind, Except.bind])
    | ok sc =>
      rw [hsc] at hok
      simp only [Bind.bind, Except.bind] at hok
      cases hloop : parseArgsLoop (argv.filter (fun a => a ≠ "--"))
          (initialOptions env sc) false with
      | error e =>
        rw [hloop] at hok
        simp at hok
      | ok p =>
        obtain ⟨opts, help⟩ := p
        rw [hloop] at hok
        dsimp only at hok
        by_cases hurl : opts.url = ""
        · rw [if_pos hurl] at hok
          exact absurd hok (by simp)
        · rw [if_neg hurl] at hok
          by_cases hconf : strTruthy opts.connectEndpoint ∧
            opts.connectPort.isSome
          · rw [if_pos hconf] at hok
            exact absurd hok (by simp)
          · rw [if_neg hconf] at hok
            have hinv0 : strTruthy opts.connectEndpoint = true →
                opts.connectPort = none := by
              intro he
              by_cases hp : opts.connectPort = none
              · exact hp
              · exact absurd ⟨he, Option.ne_none_iff_isSome.mp hp⟩ hconf
            have hinv := @npmPhase_inv env.npm_config_argv argv
              (argv.filter (fun a => a ≠ "--")) opts hinv0
            set o2 := npmPhase env.npm_config_argv argv
              (argv.filter (fun a => a ≠ "--")) opts with ho2
            by_cases hadj : o2.scenario ≠ CliScenario.parseProduct ∧
                !(argv.filter (fun a => a ≠ "--")).contains
                    "--keep-browser-open" ∧
                !(argv.filter (fun a => a ≠ "--")).contains "--auto-close"
            · rw [if_pos hadj] at hok
              have hr : r =
                  { options := { o2 with keepBrowserOpen := false },
                    helpRequested := help } := by
                injection hok with h1
                exact h1.symm
              rw [hr] at hep ⊢
              exact hinv hep
            · rw [if_neg hadj] at hok
              have hr : r = { options := o2, helpRequested := help } := by
                injection hok with h1
                exact h1.symm
              rw [hr] at hep ⊢
              exact hinv hep

/-- Closed witness for `connect_conflict_detection`. -/
theorem connect_conflict_detection_witness :
    parseCli ["--connect-endpoint", "ws://foo", "--connect-port", "9333"]
        { } =
      Except.error
        "Provide either --connect-endpoint or --connect-port, not both." := by
  have h := (connect_conflict_detection
    ["--connect-endpoint", "ws://foo", "--connect-port", "9333"] { }).1
  exact h CliScenario.parseProduct
    { url := DEFAULT_PRODUCT_URL, output := OutputFormat.text,
      headless := true, timeoutMs := none, verbose := false,
      keepBrowserOpen := false, proxy := none, proxyUsername := none,
      proxyPassword := none, connectEndpoint := some "ws://foo",
      connectPort := some 9333, scenario := CliScenario.parseProduct }
    false rfl (by rfl) (by decide) (by rfl) (by rfl)

end Ozone
